import Mathlib

/-!
Shallow embedding of the convective/source residual assembly, time-step
computation and implicit iteration of `CNEMOEulerSolver`
(SU2_CFD/src/solvers/CNEMOEulerSolver.cpp), together with the fatal-error
behaviour of `SU2_MPI::Error` (Common/src/mpi_structure.cpp).

`su2double` values flowing through the NaN guards are modelled by
`SU2Double`: either an exact rational value or NaN.  The C++ NaN test
`x != x` is modelled by `SU2Double.neqSelf`, which is `true` exactly on NaN,
matching IEEE-754 semantics of `!=` on doubles.  Arithmetic is exact rational
arithmetic with NaN absorbing, which is the fragment of IEEE arithmetic the
verified properties depend on.

Points are indexed by `Fin nP`, variables by `Fin nV`, so that the global
residual vector (`LinSysRes`, blocks of `nVar` accumulators per point) and the
block-sparse Jacobian are total finite maps.
-/

namespace SU2NEMO

/-- A `su2double` as seen by the NaN guards: an exact value or NaN. -/
inductive SU2Double where
  | val : ℚ → SU2Double
  | nan : SU2Double
deriving DecidableEq

namespace SU2Double

/-- Addition: NaN absorbs, values add exactly. -/
def add : SU2Double → SU2Double → SU2Double
  | val a, val b => val (a + b)
  | _, _ => nan

/-- Subtraction: NaN absorbs, values subtract exactly. -/
def sub : SU2Double → SU2Double → SU2Double
  | val a, val b => val (a - b)
  | _, _ => nan

/-- The C++ NaN check `x != x`: true exactly when `x` is NaN. -/
def neqSelf : SU2Double → Bool
  | val _ => false
  | nan => true

theorem neqSelf_eq_true_iff (x : SU2Double) : x.neqSelf = true ↔ x = nan := by
  cases x <;> simp [neqSelf]

theorem add_add_eq_add_add (a b c : SU2Double) :
    (a.add b).add c = a.add (b.add c) := by
  cases a <;> cases b <;> cases c <;> simp [add, add_assoc]

theorem sub_sub_eq_sub_add (a b c : SU2Double) :
    (a.sub b).sub c = a.sub (b.add c) := by
  cases a <;> cases b <;> cases c <;> simp [sub, add, sub_sub]

theorem add_ne_nan (a b : SU2Double) (ha : a ≠ nan) (hb : b ≠ nan) :
    a.add b ≠ nan := by
  cases a <;> cases b <;> simp_all [add]

/-- Adding a (non-NaN) flux at one side and subtracting it at the other
cancels in the sum of the two sides. -/
theorem add_flux_cancel (a b f : SU2Double) (hf : f ≠ nan) :
    (a.add f).add (b.sub f) = a.add b := by
  cases a <;> cases b <;> cases f <;> simp_all [add, sub]

end SU2Double

/-- The part of the solver state the per-edge/per-point assembly mutates:
the global residual vector `LinSysRes` (an `nVar` block per point) and the
block-sparse `Jacobian` (an `nVar × nVar` block per point pair). -/
structure LinSys (nP nV : ℕ) where
  res : Fin nP → Fin nV → SU2Double
  jac : Fin nP → Fin nP → Fin nV → Fin nV → SU2Double

/-- `CSysVector::AddBlock(i, b)`: adds `b` into the residual block of `i`. -/
def addBlock {nP nV : ℕ} (R : Fin nP → Fin nV → SU2Double) (i : Fin nP)
    (b : Fin nV → SU2Double) : Fin nP → Fin nV → SU2Double :=
  fun p v => if p = i then (R p v).add (b v) else R p v

/-- `CSysVector::SubtractBlock(i, b)`: subtracts `b` from the block of `i`. -/
def subtractBlock {nP nV : ℕ} (R : Fin nP → Fin nV → SU2Double) (i : Fin nP)
    (b : Fin nV → SU2Double) : Fin nP → Fin nV → SU2Double :=
  fun p v => if p = i then (R p v).sub (b v) else R p v

/-- `CSysMatrix::AddBlock(p, q, B)`: adds the `nVar × nVar` block `B` to the
`(p, q)` block of the Jacobian. -/
def jacAddBlock {nP nV : ℕ} (J : Fin nP → Fin nP → Fin nV → Fin nV → SU2Double)
    (p q : Fin nP) (B : Fin nV → Fin nV → SU2Double) :
    Fin nP → Fin nP → Fin nV → Fin nV → SU2Double :=
  fun a b v w => if a = p ∧ b = q then (J a b v w).add (B v w) else J a b v w

/-- `CSysMatrix::SubtractBlock(p, q, B)`: subtracts the block `B` from the
`(p, q)` block of the Jacobian. -/
def jacSubtractBlock {nP nV : ℕ} (J : Fin nP → Fin nP → Fin nV → Fin nV → SU2Double)
    (p q : Fin nP) (B : Fin nV → Fin nV → SU2Double) :
    Fin nP → Fin nP → Fin nV → Fin nV → SU2Double :=
  fun a b v w => if a = p ∧ b = q then (J a b v w).sub (B v w) else J a b v w

/-- The outputs of `numerics->ComputeResidual(Res_Conv, Res_Visc, Jacobian_i,
Jacobian_j, config)` for one edge in `Centered_Residual`: convective flux,
artificial-dissipation flux, and the two Jacobian blocks. -/
structure CenteredEdgeFlux (nV : ℕ) where
  resConv : Fin nV → SU2Double
  resVisc : Fin nV → SU2Double
  jacI : Fin nV → Fin nV → SU2Double
  jacJ : Fin nV → Fin nV → SU2Double

/-- The NaN check of `Centered_Residual` (CNEMOEulerSolver.cpp:767-778):
`err` is set if any entry of `Res_Conv` or `Res_Visc` fails `x != x`, or, when
the scheme is implicit, if any entry of `Jacobian_i` or `Jacobian_j` does. -/
def centeredEdgeErr {nV : ℕ} (implicit : Bool) (f : CenteredEdgeFlux nV) : Bool :=
  ((List.finRange nV).any fun v => (f.resConv v).neqSelf || (f.resVisc v).neqSelf) ||
  (implicit &&
    ((List.finRange nV).any fun v => (List.finRange nV).any fun w =>
      (f.jacI v w).neqSelf || (f.jacJ v w).neqSelf))

/-- The per-edge update of `Centered_Residual` (CNEMOEulerSolver.cpp:780-792):
when no NaN was detected, add `Res_Conv` and `Res_Visc` to the block of
`iPoint` and subtract them from the block of `jPoint`; when implicit, add the
Jacobian blocks at `(i,i)` and `(i,j)` and subtract them at `(j,i)` and
`(j,j)`.  When a NaN was detected, the state is left untouched. -/
def Centered_Residual_edge {nP nV : ℕ} (implicit : Bool) (i j : Fin nP)
    (f : CenteredEdgeFlux nV) (s : LinSys nP nV) : LinSys nP nV :=
  if centeredEdgeErr implicit f then s
  else
    { res := subtractBlock
        (addBlock (subtractBlock (addBlock s.res i f.resConv) j f.resConv) i f.resVisc)
        j f.resVisc
      jac := if implicit then
          jacSubtractBlock
            (jacSubtractBlock (jacAddBlock (jacAddBlock s.jac i i f.jacI) i j f.jacJ)
              j i f.jacI)
            j j f.jacJ
        else s.jac }

/-- The NaN check of `Upwind_Residual` (CNEMOEulerSolver.cpp:938-941): only the
flux residual is checked (the Jacobian code is commented out in the source). -/
def upwindEdgeErr {nV : ℕ} (r : Fin nV → SU2Double) : Bool :=
  (List.finRange nV).any fun v => (r v).neqSelf

/-- The per-edge update of `Upwind_Residual` (CNEMOEulerSolver.cpp:949-959):
when no NaN was detected, add the residual to the block of `iPoint` and
subtract it from the block of `jPoint`; no Jacobian is assembled. -/
def Upwind_Residual_edge {nP nV : ℕ} (i j : Fin nP) (r : Fin nV → SU2Double)
    (s : LinSys nP nV) : LinSys nP nV :=
  if upwindEdgeErr r then s
  else { s with res := subtractBlock (addBlock s.res i r) j r }

theorem centeredEdgeErr_eq_false {nV : ℕ} (implicit : Bool) (f : CenteredEdgeFlux nV)
    (hc : ∀ v, f.resConv v ≠ SU2Double.nan) (hv : ∀ v, f.resVisc v ≠ SU2Double.nan)
    (hj : implicit = true → ∀ v w, f.jacI v w ≠ SU2Double.nan ∧ f.jacJ v w ≠ SU2Double.nan) :
    centeredEdgeErr implicit f = false := by
  cases implicit with
  | false =>
    simp only [centeredEdgeErr, Bool.false_and, Bool.or_false, List.any_eq_false]
    intro v _
    simp [SU2Double.neqSelf_eq_true_iff, hc v, hv v]
  | true =>
    simp only [centeredEdgeErr, Bool.true_and, Bool.or_eq_false_iff, List.any_eq_false]
    constructor
    · intro v _
      simp [SU2Double.neqSelf_eq_true_iff, hc v, hv v]
    · intro v _
      rw [Bool.not_eq_true, List.any_eq_false]
      intro w _
      simp [SU2Double.neqSelf_eq_true_iff, (hj rfl v w).1, (hj rfl v w).2]

theorem centeredEdgeErr_eq_true {nV : ℕ} (implicit : Bool) (f : CenteredEdgeFlux nV)
    (h : (∃ v, f.resConv v = SU2Double.nan ∨ f.resVisc v = SU2Double.nan) ∨
         (implicit = true ∧ ∃ v w, f.jacI v w = SU2Double.nan ∨ f.jacJ v w = SU2Double.nan)) :
    centeredEdgeErr implicit f = true := by
  rcases h with ⟨v, hv⟩ | ⟨himp, v, w, hvw⟩
  · refine Bool.or_eq_true_iff.mpr (Or.inl ?_)
    refine List.any_eq_true.mpr ⟨v, List.mem_finRange v, ?_⟩
    rcases hv with h1 | h1 <;> simp [h1, SU2Double.neqSelf]
  · refine Bool.or_eq_true_iff.mpr (Or.inr ?_)
    subst himp
    refine Bool.true_and _ ▸ List.any_eq_true.mpr ⟨v, List.mem_finRange v, ?_⟩
    refine List.any_eq_true.mpr ⟨w, List.mem_finRange w, ?_⟩
    rcases hvw with h1 | h1 <;> simp [h1, SU2Double.neqSelf]

theorem upwindEdgeErr_eq_false {nV : ℕ} (r : Fin nV → SU2Double)
    (hr : ∀ v, r v ≠ SU2Double.nan) : upwindEdgeErr r = false := by
  simp only [upwindEdgeErr, List.any_eq_false]
  intro v _
  simp [SU2Double.neqSelf_eq_true_iff, hr v]

theorem upwindEdgeErr_eq_true {nV : ℕ} (r : Fin nV → SU2Double)
    (h : ∃ v, r v = SU2Double.nan) : upwindEdgeErr r = true := by
  obtain ⟨v, hv⟩ := h
  exact List.any_eq_true.mpr ⟨v, List.mem_finRange v, by simp [hv, SU2Double.neqSelf]⟩

/-- A point other than the two endpoints of the edge is never touched by the
centered per-edge update. -/
theorem Centered_Residual_edge_res_other {nP nV : ℕ} (implicit : Bool)
    (i j p : Fin nP) (f : CenteredEdgeFlux nV) (s : LinSys nP nV)
    (hpi : p ≠ i) (hpj : p ≠ j) :
    (Centered_Residual_edge implicit i j f s).res p = s.res p := by
  unfold Centered_Residual_edge
  split
  · rfl
  · funext v
    simp [addBlock, subtractBlock, hpi, hpj]

/-- A point other than the two endpoints of the edge is never touched by the
upwind per-edge update. -/
theorem Upwind_Residual_edge_res_other {nP nV : ℕ} (i j p : Fin nP)
    (r : Fin nV → SU2Double) (s : LinSys nP nV) (hpi : p ≠ i) (hpj : p ≠ j) :
    (Upwind_Residual_edge i j r s).res p = s.res p := by
  unfold Upwind_Residual_edge
  split
  · rfl
  · funext v
    simp [addBlock, subtractBlock, hpi, hpj]

/-- C1: for an interior edge whose computed flux carries no NaN, both the
centered path (`Centered_Residual`) and the upwind path (`Upwind_Residual`)
add to the first endpoint's residual block exactly the flux vector they
subtract from the second endpoint's block, variable by variable; hence the
edge's net contribution to the sum of the two endpoint residuals is zero. -/
theorem edge_flux_antisymmetric {nP nV : ℕ} (implicit : Bool) (i j : Fin nP)
    (f : CenteredEdgeFlux nV) (r : Fin nV → SU2Double) (s t : LinSys nP nV)
    (hij : i ≠ j)
    (hc : ∀ v, f.resConv v ≠ SU2Double.nan) (hv : ∀ v, f.resVisc v ≠ SU2Double.nan)
    (hj : implicit = true → ∀ v w, f.jacI v w ≠ SU2Double.nan ∧ f.jacJ v w ≠ SU2Double.nan)
    (hr : ∀ v, r v ≠ SU2Double.nan) :
    (∀ v, (Centered_Residual_edge implicit i j f s).res i v
        = (s.res i v).add ((f.resConv v).add (f.resVisc v))) ∧
    (∀ v, (Centered_Residual_edge implicit i j f s).res j v
        = (s.res j v).sub ((f.resConv v).add (f.resVisc v))) ∧
    (∀ v, ((Centered_Residual_edge implicit i j f s).res i v).add
            ((Centered_Residual_edge implicit i j f s).res j v)
        = (s.res i v).add (s.res j v)) ∧
    (∀ v, (Upwind_Residual_edge i j r t).res i v = (t.res i v).add (r v)) ∧
    (∀ v, (Upwind_Residual_edge i j r t).res j v = (t.res j v).sub (r v)) ∧
    (∀ v, ((Upwind_Residual_edge i j r t).res i v).add
            ((Upwind_Residual_edge i j r t).res j v)
        = (t.res i v).add (t.res j v)) := by
  have herr := centeredEdgeErr_eq_false implicit f hc hv hj
  have herr2 := upwindEdgeErr_eq_false r hr
  have hji : j ≠ i := fun h => hij h.symm
  have hresI : ∀ v, (Centered_Residual_edge implicit i j f s).res i v
      = (s.res i v).add ((f.resConv v).add (f.resVisc v)) := by
    intro v
    simp [Centered_Residual_edge, herr, addBlock, subtractBlock, hij,
      SU2Double.add_add_eq_add_add]
  have hresJ : ∀ v, (Centered_Residual_edge implicit i j f s).res j v
      = (s.res j v).sub ((f.resConv v).add (f.resVisc v)) := by
    intro v
    simp [Centered_Residual_edge, herr, addBlock, subtractBlock, hji,
      SU2Double.sub_sub_eq_sub_add]
  have huI : ∀ v, (Upwind_Residual_edge i j r t).res i v = (t.res i v).add (r v) := by
    intro v
    simp [Upwind_Residual_edge, herr2, addBlock, subtractBlock, hij]
  have huJ : ∀ v, (Upwind_Residual_edge i j r t).res j v = (t.res j v).sub (r v) := by
    intro v
    simp [Upwind_Residual_edge, herr2, addBlock, subtractBlock, hji]
  refine ⟨hresI, hresJ, ?_, huI, huJ, ?_⟩
  · intro v
    rw [hresI v, hresJ v]
    exact SU2Double.add_flux_cancel _ _ _
      (SU2Double.add_ne_nan _ _ (hc v) (hv v))
  · intro v
    rw [huI v, huJ v]
    exact SU2Double.add_flux_cancel _ _ _ (hr v)

/-- Concrete witness inputs for the edge theorems. -/
def witFlux : CenteredEdgeFlux 1 where
  resConv := fun _ => SU2Double.val 2
  resVisc := fun _ => SU2Double.val 3
  jacI := fun _ _ => SU2Double.val 1
  jacJ := fun _ _ => SU2Double.val 4

/-- Concrete witness flux with a NaN entry. -/
def witFluxNaN : CenteredEdgeFlux 1 where
  resConv := fun _ => SU2Double.nan
  resVisc := fun _ => SU2Double.val 3
  jacI := fun _ _ => SU2Double.val 1
  jacJ := fun _ _ => SU2Double.val 4

/-- Concrete witness state on a two-point mesh. -/
def witSys : LinSys 2 1 where
  res := fun _ _ => SU2Double.val 1
  jac := fun _ _ _ _ => SU2Double.val 0

theorem edge_flux_antisymmetric_witness :
    ((0 : Fin 2) ≠ 1) ∧
    (∀ v, witFlux.resConv v ≠ SU2Double.nan) ∧
    (∀ v, witFlux.resVisc v ≠ SU2Double.nan) ∧
    (∀ v : Fin 1, (fun _ : Fin 1 => SU2Double.val (5 : ℚ)) v ≠ SU2Double.nan) ∧
    ((∀ v, (Centered_Residual_edge true 0 1 witFlux witSys).res 0 v
        = (witSys.res 0 v).add ((witFlux.resConv v).add (witFlux.resVisc v))) ∧
     (∀ v, (Centered_Residual_edge true 0 1 witFlux witSys).res 1 v
        = (witSys.res 1 v).sub ((witFlux.resConv v).add (witFlux.resVisc v))) ∧
     (∀ v, ((Centered_Residual_edge true 0 1 witFlux witSys).res 0 v).add
             ((Centered_Residual_edge true 0 1 witFlux witSys).res 1 v)
        = (witSys.res 0 v).add (witSys.res 1 v)) ∧
     (∀ v, (Upwind_Residual_edge 0 1 (fun _ => SU2Double.val 5) witSys).res 0 v
        = (witSys.res 0 v).add (SU2Double.val 5)) ∧
     (∀ v, (Upwind_Residual_edge 0 1 (fun _ => SU2Double.val 5) witSys).res 1 v
        = (witSys.res 1 v).sub (SU2Double.val 5)) ∧
     (∀ v, ((Upwind_Residual_edge 0 1 (fun _ => SU2Double.val 5) witSys).res 0 v).add
             ((Upwind_Residual_edge 0 1 (fun _ => SU2Double.val 5) witSys).res 1 v)
        = (witSys.res 0 v).add (witSys.res 1 v))) :=
  ⟨by decide, by decide, by decide, by decide,
   edge_flux_antisymmetric true 0 1 witFlux (fun _ => SU2Double.val 5) witSys witSys
     (by decide) (by decide) (by decide)
     (fun _ => by decide) (by decide)⟩

/-- C2: if any checked entry of an edge's computed flux (or, for the implicit
centered path, of either Jacobian block) is NaN, the whole contribution of
that edge is discarded: neither the residual nor the Jacobian of any point
changes, and no error is raised (the update is a total function).  Moreover a
point other than the two endpoints is never affected by an edge, so the
residuals of all other points match a run in which the edge produced any
other flux. -/
theorem nan_guard_discards_edge {nP nV : ℕ} (implicit : Bool) (i j p : Fin nP)
    (f f' : CenteredEdgeFlux nV) (r r' : Fin nV → SU2Double) (s : LinSys nP nV)
    (hpi : p ≠ i) (hpj : p ≠ j) :
    ((∃ v, f.resConv v = SU2Double.nan ∨ f.resVisc v = SU2Double.nan) ∨
       (implicit = true ∧ ∃ v w, f.jacI v w = SU2Double.nan ∨ f.jacJ v w = SU2Double.nan) →
      (Centered_Residual_edge implicit i j f s).res = s.res ∧
      (Centered_Residual_edge implicit i j f s).jac = s.jac) ∧
    ((∃ v, r v = SU2Double.nan) →
      (Upwind_Residual_edge i j r s).res = s.res ∧
      (Upwind_Residual_edge i j r s).jac = s.jac) ∧
    ((Centered_Residual_edge implicit i j f s).res p
        = (Centered_Residual_edge implicit i j f' s).res p ∧
     (Upwind_Residual_edge i j r s).res p = (Upwind_Residual_edge i j r' s).res p) := by
  refine ⟨?_, ?_, ?_⟩
  · intro h
    have herr := centeredEdgeErr_eq_true implicit f h
    simp [Centered_Residual_edge, herr]
  · intro h
    have herr := upwindEdgeErr_eq_true r h
    simp [Upwind_Residual_edge, herr]
  · constructor
    · rw [Centered_Residual_edge_res_other implicit i j p f s hpi hpj,
        Centered_Residual_edge_res_other implicit i j p f' s hpi hpj]
    · rw [Upwind_Residual_edge_res_other i j p r s hpi hpj,
        Upwind_Residual_edge_res_other i j p r' s hpi hpj]

/-- Concrete witness state on a three-point mesh. -/
def witSys3 : LinSys 3 1 where
  res := fun _ _ => SU2Double.val 7
  jac := fun _ _ _ _ => SU2Double.val 0

theorem nan_guard_discards_edge_witness :
    ((2 : Fin 3) ≠ 0) ∧ ((2 : Fin 3) ≠ 1) ∧
    (((∃ v, witFluxNaN.resConv v = SU2Double.nan ∨ witFluxNaN.resVisc v = SU2Double.nan) ∨
        (true = true ∧ ∃ v w, witFluxNaN.jacI v w = SU2Double.nan ∨
          witFluxNaN.jacJ v w = SU2Double.nan) →
       (Centered_Residual_edge true 0 1 witFluxNaN witSys3).res = witSys3.res ∧
       (Centered_Residual_edge true 0 1 witFluxNaN witSys3).jac = witSys3.jac) ∧
     ((∃ v, (fun _ : Fin 1 => SU2Double.nan) v = SU2Double.nan) →
       (Upwind_Residual_edge 0 1 (fun _ => SU2Double.nan) witSys3).res = witSys3.res ∧
       (Upwind_Residual_edge 0 1 (fun _ => SU2Double.nan) witSys3).jac = witSys3.jac) ∧
     ((Centered_Residual_edge true 0 1 witFluxNaN witSys3).res 2
         = (Centered_Residual_edge true 0 1 witFlux witSys3).res 2 ∧
      (Upwind_Residual_edge 0 1 (fun _ => SU2Double.nan) witSys3).res 2
         = (Upwind_Residual_edge 0 1 (fun _ => SU2Double.val 5) witSys3).res 2)) :=
  ⟨by decide, by decide,
   nan_guard_discards_edge true 0 1 2 witFluxNaN witFlux
     (fun _ => SU2Double.nan) (fun _ => SU2Double.val 5) witSys3
     (by decide) (by decide)⟩

/-- Per-point data read from the node container (`nodes->Get...`) and the
geometry (`GetCoord`): conserved state `U`, primitive state `V`, the fluid
derivative arrays, vibrational energies and specific heats, the
reconstruction gradient, the slope-limiter values and the coordinates.
Reconstruction arithmetic is modelled exactly over the rationals. -/
structure NodeData (nV nPrim nSp nDim : ℕ) where
  solution : Fin nV → ℚ
  primitive : Fin nPrim → ℚ
  dPdU : Fin nV → ℚ
  dTdU : Fin nV → ℚ
  dTvedU : Fin nV → ℚ
  eve : Fin nSp → ℚ
  cvve : Fin nSp → ℚ
  gradU : Fin nV → Fin nDim → ℚ
  limiter : Fin nV → ℚ
  coord : Fin nDim → ℚ
deriving DecidableEq

/-- The state handed to the convective flux functor through
`SetNormal`, `SetConservative`, `SetPrimitive`, `SetdPdU`, `SetdTdU`,
`SetdTvedU`, `SetEve` and `SetCvve`. -/
structure ConvInput (nV nPrim nSp nDim : ℕ) where
  normal : Fin nDim → ℚ
  consI : Fin nV → ℚ
  consJ : Fin nV → ℚ
  primI : Fin nPrim → ℚ
  primJ : Fin nPrim → ℚ
  dPdUI : Fin nV → ℚ
  dPdUJ : Fin nV → ℚ
  dTdUI : Fin nV → ℚ
  dTdUJ : Fin nV → ℚ
  dTvedUI : Fin nV → ℚ
  dTvedUJ : Fin nV → ℚ
  eveI : Fin nSp → ℚ
  eveJ : Fin nSp → ℚ
  cvveI : Fin nSp → ℚ
  cvveJ : Fin nSp → ℚ
deriving DecidableEq

/-- Output of `CNEMOEulerVariable::Cons2PrimVar` (external to the excerpt):
the primitive state, the four derivative arrays, the vibrational energies and
specific heats, and the boolean return value, `true` when the converted state
is non-physical. -/
structure Cons2PrimOut (nV nPrim nSp : ℕ) where
  nonPhys : Bool
  prim : Fin nPrim → ℚ
  dPdU : Fin nV → ℚ
  dTdU : Fin nV → ℚ
  dTvedU : Fin nV → ℚ
  eve : Fin nSp → ℚ
  cvve : Fin nSp → ℚ

/-- The variables set "without reconstruction": the unmodified cell-center
conserved and primitive states and the stored derivative arrays of the two
endpoints (CNEMOEulerSolver.cpp:923-932, and the fallback branch 906-913). -/
def firstOrderInput {nV nPrim nSp nDim : ℕ} (normal : Fin nDim → ℚ)
    (ni nj : NodeData nV nPrim nSp nDim) : ConvInput nV nPrim nSp nDim where
  normal := normal
  consI := ni.solution
  consJ := nj.solution
  primI := ni.primitive
  primJ := nj.primitive
  dPdUI := ni.dPdU
  dPdUJ := nj.dPdU
  dTdUI := ni.dTdU
  dTdUJ := nj.dTdU
  dTvedUI := ni.dTvedU
  dTvedUJ := nj.dTvedU
  eveI := ni.eve
  eveJ := nj.eve
  cvveI := ni.cvve
  cvveJ := nj.cvve

/-- The loop `lim_i = 1.0; if (lim_i > Limiter[iVar]) lim_i = Limiter[iVar]`
(CNEMOEulerSolver.cpp:873-878): the minimum of 1 and all limiter values. -/
def limMin {nV : ℕ} (L : Fin nV → ℚ) : ℚ :=
  (List.finRange nV).foldl (fun acc v => min acc (L v)) 1

/-- `lim_ij = min(lim_i, lim_j)` (CNEMOEulerSolver.cpp:879). -/
def limIJ {nV nPrim nSp nDim : ℕ} (ni nj : NodeData nV nPrim nSp nDim) : ℚ :=
  min (limMin ni.limiter) (limMin nj.limiter)

/-- MUSCL reconstruction of the conserved variables at the edge interface
(CNEMOEulerSolver.cpp:855-897): half-edge displacement vectors from each
endpoint to the face midpoint, gradients projected along them, blended by
`lim_ij` when the limiter is active. -/
def musclConserved {nV nPrim nSp nDim : ℕ} (limiterOn : Bool)
    (ni nj : NodeData nV nPrim nSp nDim) : (Fin nV → ℚ) × (Fin nV → ℚ) :=
  let vecI : Fin nDim → ℚ := fun d => (nj.coord d - ni.coord d) / 2
  let vecJ : Fin nDim → ℚ := fun d => (ni.coord d - nj.coord d) / 2
  let projI : Fin nV → ℚ := fun v => ∑ d, vecI d * ni.gradU v d
  let projJ : Fin nV → ℚ := fun v => ∑ d, vecJ d * nj.gradU v d
  if limiterOn then
    (fun v => ni.solution v + limIJ ni nj * projI v,
     fun v => nj.solution v + limIJ ni nj * projJ v)
  else
    (fun v => ni.solution v + projI v, fun v => nj.solution v + projJ v)

/-- The input selection of `Upwind_Residual` (CNEMOEulerSolver.cpp:851-932):
with MUSCL enabled, reconstruct both face states, convert them through
`Cons2PrimVar`, and if either conversion flags a non-physical state revert to
the unmodified cell-center states and derivative arrays; without MUSCL, use
the cell-center states directly. -/
def upwindNumericsInput {nV nPrim nSp nDim : ℕ} (muscl limiterOn : Bool)
    (cons2prim : (Fin nV → ℚ) → Cons2PrimOut nV nPrim nSp)
    (normal : Fin nDim → ℚ) (ni nj : NodeData nV nPrim nSp nDim) :
    ConvInput nV nPrim nSp nDim :=
  if muscl then
    let cs := musclConserved limiterOn ni nj
    let ri := cons2prim cs.1
    let rj := cons2prim cs.2
    if ri.nonPhys || rj.nonPhys then firstOrderInput normal ni nj
    else
      { normal := normal
        consI := cs.1
        consJ := cs.2
        primI := ri.prim
        primJ := rj.prim
        dPdUI := ri.dPdU
        dPdUJ := rj.dPdU
        dTdUI := ri.dTdU
        dTdUJ := rj.dTdU
        dTvedUI := ri.dTvedU
        dTvedUJ := rj.dTvedU
        eveI := ri.eve
        eveJ := rj.eve
        cvveI := ri.cvve
        cvveJ := rj.cvve }
  else firstOrderInput normal ni nj

/-- One full edge of `Upwind_Residual`: select the functor input, evaluate
the flux functor, then apply the NaN-guarded antisymmetric accumulation. -/
def Upwind_Residual_edge_full {nP nV nPrim nSp nDim : ℕ} (muscl limiterOn : Bool)
    (cons2prim : (Fin nV → ℚ) → Cons2PrimOut nV nPrim nSp)
    (flux : ConvInput nV nPrim nSp nDim → Fin nV → SU2Double)
    (i j : Fin nP) (normal : Fin nDim → ℚ) (ni nj : NodeData nV nPrim nSp nDim)
    (s : LinSys nP nV) : LinSys nP nV :=
  Upwind_Residual_edge i j (flux (upwindNumericsInput muscl limiterOn cons2prim normal ni nj)) s

/-- C4: with MUSCL reconstruction enabled, an edge for which the
conserved-to-primitive conversion flags either reconstructed face state as
non-physical is silently reverted to first order: the flux functor receives
the unmodified cell-center conserved and primitive states and the cell-center
derivative arrays of both endpoints, and the edge is processed (not
rejected) exactly like a first-order edge. -/
theorem muscl_nonphysical_reverts_first_order {nP nV nPrim nSp nDim : ℕ}
    (limiterOn : Bool) (cons2prim : (Fin nV → ℚ) → Cons2PrimOut nV nPrim nSp)
    (flux : ConvInput nV nPrim nSp nDim → Fin nV → SU2Double)
    (i j : Fin nP) (normal : Fin nDim → ℚ) (ni nj : NodeData nV nPrim nSp nDim)
    (s : LinSys nP nV)
    (hnp : (cons2prim (musclConserved limiterOn ni nj).1).nonPhys = true ∨
           (cons2prim (musclConserved limiterOn ni nj).2).nonPhys = true) :
    upwindNumericsInput true limiterOn cons2prim normal ni nj
      = firstOrderInput normal ni nj ∧
    Upwind_Residual_edge_full true limiterOn cons2prim flux i j normal ni nj s
      = Upwind_Residual_edge i j (flux (firstOrderInput normal ni nj)) s := by
  have hsel : upwindNumericsInput true limiterOn cons2prim normal ni nj
      = firstOrderInput normal ni nj := by
    unfold upwindNumericsInput
    rcases hnp with h | h <;> simp [h]
  exact ⟨hsel, by unfold Upwind_Residual_edge_full; rw [hsel]⟩

/-- Concrete witness node data in one dimension with one variable. -/
def witNode : NodeData 1 1 1 1 where
  solution := fun _ => 10
  primitive := fun _ => 11
  dPdU := fun _ => 12
  dTdU := fun _ => 13
  dTvedU := fun _ => 14
  eve := fun _ => 15
  cvve := fun _ => 16
  gradU := fun _ _ => 2
  limiter := fun _ => 1
  coord := fun _ => 0

/-- Second concrete witness node. -/
def witNode2 : NodeData 1 1 1 1 where
  solution := fun _ => 20
  primitive := fun _ => 21
  dPdU := fun _ => 22
  dTdU := fun _ => 23
  dTvedU := fun _ => 24
  eve := fun _ => 25
  cvve := fun _ => 26
  gradU := fun _ _ => 3
  limiter := fun _ => 1
  coord := fun _ => 1

/-- A conversion that always reports a non-physical state. -/
def witCons2PrimBad : (Fin 1 → ℚ) → Cons2PrimOut 1 1 1 := fun u =>
  { nonPhys := true
    prim := u
    dPdU := u
    dTdU := u
    dTvedU := u
    eve := u
    cvve := u }

theorem muscl_nonphysical_reverts_first_order_witness :
    ((witCons2PrimBad (musclConserved true witNode witNode2).1).nonPhys = true ∨
     (witCons2PrimBad (musclConserved true witNode witNode2).2).nonPhys = true) ∧
    (upwindNumericsInput true true witCons2PrimBad (fun _ => 1) witNode witNode2
      = firstOrderInput (fun _ => 1) witNode witNode2 ∧
     Upwind_Residual_edge_full true true witCons2PrimBad
        (fun inp v => SU2Double.val (inp.consI v)) 0 1 (fun _ => 1) witNode witNode2 witSys
      = Upwind_Residual_edge 0 1
          (fun v => SU2Double.val ((firstOrderInput (fun _ => 1) witNode witNode2).consI v))
          witSys) :=
  ⟨Or.inl rfl,
   muscl_nonphysical_reverts_first_order true witCons2PrimBad
     (fun inp v => SU2Double.val (inp.consI v)) 0 1 (fun _ => 1) witNode witNode2 witSys
     (Or.inl rfl)⟩

/-- The functor input built by `BC_Supersonic_Outlet`
(CNEMOEulerSolver.cpp:2666-2688): the vertex normal negated for the outward
convention, the interior point's conserved and primitive states passed as
both left and right state, and its own derivative arrays on both sides. -/
def BC_Supersonic_Outlet_input {nV nPrim nSp nDim : ℕ} (vertNormal : Fin nDim → ℚ)
    (nd : NodeData nV nPrim nSp nDim) : ConvInput nV nPrim nSp nDim where
  normal := fun d => -(vertNormal d)
  consI := nd.solution
  consJ := nd.solution
  primI := nd.primitive
  primJ := nd.primitive
  dPdUI := nd.dPdU
  dPdUJ := nd.dPdU
  dTdUI := nd.dTdU
  dTdUJ := nd.dTdU
  dTvedUI := nd.dTvedU
  dTvedUJ := nd.dTvedU
  eveI := nd.eve
  eveJ := nd.eve
  cvveI := nd.cvve
  cvveJ := nd.cvve

/-- One vertex of `BC_Supersonic_Outlet` (CNEMOEulerSolver.cpp:2659-2701):
if the point is owned by the domain, evaluate the upwind flux functor on the
interior state passed as both sides and add the residual to the point's
block; a halo vertex is skipped.  No Jacobian is assembled (commented out in
the source). -/
def BC_Supersonic_Outlet_vertex {nP nV nPrim nSp nDim : ℕ}
    (flux : ConvInput nV nPrim nSp nDim → Fin nV → SU2Double)
    (owned : Bool) (iPoint : Fin nP) (vertNormal : Fin nDim → ℚ)
    (nd : NodeData nV nPrim nSp nDim) (s : LinSys nP nV) : LinSys nP nV :=
  if owned then
    { s with res := addBlock s.res iPoint (flux (BC_Supersonic_Outlet_input vertNormal nd)) }
  else s

/-- C7: for every owned vertex of a supersonic-outlet marker, the functor
input is exactly the first-order interior input with both endpoints equal to
the interior point (and the outward-negated normal), so the boundary residual
added at the point is the upwind flux evaluated with identical left/right
states, `F(U,U)·n`. -/
theorem supersonic_outlet_degenerates_to_interior_flux {nP nV nPrim nSp nDim : ℕ}
    (flux : ConvInput nV nPrim nSp nDim → Fin nV → SU2Double)
    (owned : Bool) (iPoint : Fin nP) (vertNormal : Fin nDim → ℚ)
    (nd : NodeData nV nPrim nSp nDim) (s : LinSys nP nV) :
    BC_Supersonic_Outlet_input vertNormal nd
      = firstOrderInput (fun d => -(vertNormal d)) nd nd ∧
    (owned = true → ∀ v,
      (BC_Supersonic_Outlet_vertex flux owned iPoint vertNormal nd s).res iPoint v
        = (s.res iPoint v).add
            (flux (firstOrderInput (fun d => -(vertNormal d)) nd nd) v)) ∧
    (owned = false → BC_Supersonic_Outlet_vertex flux owned iPoint vertNormal nd s = s) := by
  refine ⟨rfl, ?_, ?_⟩
  · intro how v
    subst how
    simp [BC_Supersonic_Outlet_vertex, addBlock]
    rfl
  · intro how
    simp [BC_Supersonic_Outlet_vertex, how]

theorem supersonic_outlet_degenerates_to_interior_flux_witness :
    (true = true) ∧
    (∀ v, (BC_Supersonic_Outlet_vertex
        (fun inp v => SU2Double.val (inp.consI v + inp.normal 0)) true
        (0 : Fin 2) (fun _ => 1) witNode witSys).res 0 v
      = (witSys.res 0 v).add
          ((fun inp v => SU2Double.val (inp.consI v + inp.normal 0))
            (firstOrderInput (fun d => -((fun _ : Fin 1 => (1 : ℚ)) d)) witNode witNode) v)) :=
  ⟨rfl,
   (supersonic_outlet_degenerates_to_interior_flux
     (fun inp v => SU2Double.val (inp.consI v + inp.normal 0)) true 0
     (fun _ => 1) witNode witSys).2.1 rfl⟩

/-- Output of one source-term computation (`ComputeAxisymmetric`,
`ComputeChemistry` or `ComputeVibRelaxation`): the residual vector and the
diagonal Jacobian block `Jacobian_i` it fills. -/
structure SourceOut (nV : ℕ) where
  residual : Fin nV → SU2Double
  jac : Fin nV → Fin nV → SU2Double

/-- The per-term NaN check of `Source_Residual`: any residual entry failing
`x != x`, or, when implicit, any entry of `Jacobian_i` failing it. -/
def sourceErr {nV : ℕ} (implicit : Bool) (o : SourceOut nV) : Bool :=
  ((List.finRange nV).any fun v => (o.residual v).neqSelf) ||
  (implicit &&
    ((List.finRange nV).any fun v => (List.finRange nV).any fun w => (o.jac v w).neqSelf))

/-- The named NaN counters `eAxi_local`, `eChm_local`, `eVib_local`. -/
structure SourceCounters where
  eAxi : ℕ
  eChm : ℕ
  eVib : ℕ
deriving DecidableEq

/-- The configuration booleans read by `Source_Residual`. -/
structure SourceFlags where
  axisymmetric : Bool
  frozen : Bool
  monoatomic : Bool
  implicit : Bool
deriving DecidableEq

/-- Add a source residual (and, when implicit, its diagonal Jacobian block)
at a point: `LinSysRes.AddBlock(i, residual)` and
`Jacobian.AddBlock(i, i, Jacobian_i)`. -/
def applySourceAdd {nP nV : ℕ} (implicit : Bool) (i : Fin nP) (o : SourceOut nV)
    (s : LinSys nP nV) : LinSys nP nV :=
  { res := addBlock s.res i o.residual
    jac := if implicit then jacAddBlock s.jac i i o.jac else s.jac }

/-- Subtract a source residual (and, when implicit, its diagonal Jacobian
block) at a point: `LinSysRes.SubtractBlock(i, residual)` and
`Jacobian.SubtractBlock(i, i, Jacobian_i)`. -/
def applySourceSub {nP nV : ℕ} (implicit : Bool) (i : Fin nP) (o : SourceOut nV)
    (s : LinSys nP nV) : LinSys nP nV :=
  { res := subtractBlock s.res i o.residual
    jac := if implicit then jacSubtractBlock s.jac i i o.jac else s.jac }

/-- The axisymmetric source block (CNEMOEulerSolver.cpp:1022-1042): computed
only if axisymmetry is configured, NaN-checked, *added* to the residual when
valid, otherwise `eAxi_local` is incremented and the term skipped. -/
def axiStep {nP nV : ℕ} (fl : SourceFlags) (o : SourceOut nV) (i : Fin nP)
    (sc : LinSys nP nV × SourceCounters) : LinSys nP nV × SourceCounters :=
  if fl.axisymmetric then
    if sourceErr fl.implicit o then (sc.1, { sc.2 with eAxi := sc.2.eAxi + 1 })
    else (applySourceAdd fl.implicit i o sc.1, sc.2)
  else sc

/-- The chemistry source block (CNEMOEulerSolver.cpp:1044-1066): computed
only if the mixture is neither monoatomic nor frozen, NaN-checked,
*subtracted* from the residual when valid, otherwise `eChm_local` is
incremented and the term skipped. -/
def chemStep {nP nV : ℕ} (fl : SourceFlags) (o : SourceOut nV) (i : Fin nP)
    (sc : LinSys nP nV × SourceCounters) : LinSys nP nV × SourceCounters :=
  if ¬fl.monoatomic ∧ ¬fl.frozen then
    if sourceErr fl.implicit o then (sc.1, { sc.2 with eChm := sc.2.eChm + 1 })
    else (applySourceSub fl.implicit i o sc.1, sc.2)
  else sc

/-- The vibrational-relaxation source block (CNEMOEulerSolver.cpp:1068-1090):
computed unless the mixture is monoatomic, NaN-checked, *subtracted* from the
residual when valid, otherwise `eVib_local` is incremented and the term
skipped. -/
def vibStep {nP nV : ℕ} (fl : SourceFlags) (o : SourceOut nV) (i : Fin nP)
    (sc : LinSys nP nV × SourceCounters) : LinSys nP nV × SourceCounters :=
  if ¬fl.monoatomic then
    if sourceErr fl.implicit o then (sc.1, { sc.2 with eVib := sc.2.eVib + 1 })
    else (applySourceSub fl.implicit i o sc.1, sc.2)
  else sc

/-- One interior point of `Source_Residual` (CNEMOEulerSolver.cpp:1003-1091):
axisymmetric, then chemistry, then vibrational relaxation, each independently
toggled, NaN-guarded and signed. -/
def Source_Residual_point {nP nV : ℕ} (fl : SourceFlags)
    (axi chem vib : SourceOut nV) (i : Fin nP)
    (sc : LinSys nP nV × SourceCounters) : LinSys nP nV × SourceCounters :=
  vibStep fl vib i (chemStep fl chem i (axiStep fl axi i sc))

theorem sourceErr_eq_false {nV : ℕ} (implicit : Bool) (o : SourceOut nV)
    (hr : ∀ v, o.residual v ≠ SU2Double.nan)
    (hj : implicit = true → ∀ v w, o.jac v w ≠ SU2Double.nan) :
    sourceErr implicit o = false := by
  cases implicit with
  | false =>
    simp only [sourceErr, Bool.false_and, Bool.or_false, List.any_eq_false]
    intro v _
    simp [SU2Double.neqSelf_eq_true_iff, hr v]
  | true =>
    simp only [sourceErr, Bool.true_and, Bool.or_eq_false_iff, List.any_eq_false]
    refine ⟨fun v _ => ?_, fun v _ => ?_⟩
    · simp [SU2Double.neqSelf_eq_true_iff, hr v]
    · rw [Bool.not_eq_true, List.any_eq_false]
      intro w _
      simp [SU2Double.neqSelf_eq_true_iff, hj rfl v w]

theorem chemStep_eAxi_comm {nP nV : ℕ} (fl : SourceFlags) (o : SourceOut nV)
    (i : Fin nP) (s : LinSys nP nV) (c : SourceCounters) (x : ℕ) :
    chemStep fl o i (s, { c with eAxi := x })
      = ((chemStep fl o i (s, c)).1, { (chemStep fl o i (s, c)).2 with eAxi := x }) := by
  unfold chemStep
  split
  · split <;> rfl
  · rfl

theorem vibStep_eAxi_comm {nP nV : ℕ} (fl : SourceFlags) (o : SourceOut nV)
    (i : Fin nP) (s : LinSys nP nV) (c : SourceCounters) (x : ℕ) :
    vibStep fl o i (s, { c with eAxi := x })
      = ((vibStep fl o i (s, c)).1, { (vibStep fl o i (s, c)).2 with eAxi := x }) := by
  unfold vibStep
  split
  · split <;> rfl
  · rfl

theorem vibStep_eChm_comm {nP nV : ℕ} (fl : SourceFlags) (o : SourceOut nV)
    (i : Fin nP) (s : LinSys nP nV) (c : SourceCounters) (x : ℕ) :
    vibStep fl o i (s, { c with eChm := x })
      = ((vibStep fl o i (s, c)).1, { (vibStep fl o i (s, c)).2 with eChm := x }) := by
  unfold vibStep
  split
  · split <;> rfl
  · rfl

theorem chemStep_snd_eAxi {nP nV : ℕ} (fl : SourceFlags) (o : SourceOut nV)
    (i : Fin nP) (sc : LinSys nP nV × SourceCounters) :
    (chemStep fl o i sc).2.eAxi = sc.2.eAxi := by
  unfold chemStep
  split
  · split <;> rfl
  · rfl

theorem vibStep_snd_eAxi {nP nV : ℕ} (fl : SourceFlags) (o : SourceOut nV)
    (i : Fin nP) (sc : LinSys nP nV × SourceCounters) :
    (vibStep fl o i sc).2.eAxi = sc.2.eAxi := by
  unfold vibStep
  split
  · split <;> rfl
  · rfl

theorem vibStep_snd_eChm {nP nV : ℕ} (fl : SourceFlags) (o : SourceOut nV)
    (i : Fin nP) (sc : LinSys nP nV × SourceCounters) :
    (vibStep fl o i sc).2.eChm = sc.2.eChm := by
  unfold vibStep
  split
  · split <;> rfl
  · rfl

/-- C5: each enabled source term is NaN-checked and applied with its own
sign — axisymmetric added, chemistry and vibrational relaxation subtracted,
the implicit diagonal Jacobian blocks following the same signs — and a NaN in
one source type for one point only increments that type's counter and skips
exactly that term: the resulting linear system equals the run with that term
disabled, while the remaining terms are still applied.  The update is a total
function, so execution continues past any NaN. -/
theorem source_terms_signed_and_nan_guarded {nP nV : ℕ} (fl : SourceFlags)
    (axi chem vib : SourceOut nV) (i : Fin nP) (s : LinSys nP nV)
    (c : SourceCounters) :
    (fl.axisymmetric = true → fl.monoatomic = false → fl.frozen = false →
      sourceErr fl.implicit axi = false → sourceErr fl.implicit chem = false →
      sourceErr fl.implicit vib = false →
      (∀ v, (Source_Residual_point fl axi chem vib i (s, c)).1.res i v
          = (((s.res i v).add (axi.residual v)).sub (chem.residual v)).sub (vib.residual v)) ∧
      (fl.implicit = true → ∀ v w,
        (Source_Residual_point fl axi chem vib i (s, c)).1.jac i i v w
          = (((s.jac i i v w).add (axi.jac v w)).sub (chem.jac v w)).sub (vib.jac v w)) ∧
      (Source_Residual_point fl axi chem vib i (s, c)).2 = c) ∧
    (fl.axisymmetric = true → sourceErr fl.implicit axi = true →
      (Source_Residual_point fl axi chem vib i (s, c)).1
        = (Source_Residual_point { fl with axisymmetric := false } axi chem vib i (s, c)).1 ∧
      (Source_Residual_point fl axi chem vib i (s, c)).2
        = { (Source_Residual_point { fl with axisymmetric := false } axi chem vib i (s, c)).2
            with eAxi :=
              (Source_Residual_point { fl with axisymmetric := false } axi chem vib i (s, c)).2.eAxi + 1 }) ∧
    (fl.monoatomic = false → fl.frozen = false → sourceErr fl.implicit chem = true →
      (Source_Residual_point fl axi chem vib i (s, c)).1
        = (Source_Residual_point { fl with frozen := true } axi chem vib i (s, c)).1 ∧
      (Source_Residual_point fl axi chem vib i (s, c)).2
        = { (Source_Residual_point { fl with frozen := true } axi chem vib i (s, c)).2
            with eChm :=
              (Source_Residual_point { fl with frozen := true } axi chem vib i (s, c)).2.eChm + 1 }) ∧
    (fl.monoatomic = false → sourceErr fl.implicit vib = true →
      (Source_Residual_point fl axi chem vib i (s, c)).1
        = (chemStep fl chem i (axiStep fl axi i (s, c))).1 ∧
      (Source_Residual_point fl axi chem vib i (s, c)).2
        = { (chemStep fl chem i (axiStep fl axi i (s, c))).2
            with eVib := (chemStep fl chem i (axiStep fl axi i (s, c))).2.eVib + 1 }) := by
  refine ⟨?_, ?_, ?_, ?_⟩
  · intro hax hmono hfro ha hc2 hv2
    have hstep : Source_Residual_point fl axi chem vib i (s, c)
        = (applySourceSub fl.implicit i vib
            (applySourceSub fl.implicit i chem
              (applySourceAdd fl.implicit i axi s)), c) := by
      simp [Source_Residual_point, vibStep, chemStep, axiStep, hax, hmono, hfro, ha, hc2, hv2]
    rw [hstep]
    refine ⟨fun v => ?_, fun himp v w => ?_, rfl⟩
    · simp [applySourceSub, applySourceAdd, addBlock, subtractBlock]
    · simp [applySourceSub, applySourceAdd, jacAddBlock, jacSubtractBlock, himp]
  · intro hax herr
    have h1 : axiStep fl axi i (s, c) = (s, { c with eAxi := c.eAxi + 1 }) := by
      simp [axiStep, hax, herr]
    have h2 : axiStep { fl with axisymmetric := false } axi i (s, c) = (s, c) := by
      simp [axiStep]
    have hchem : chemStep { fl with axisymmetric := false } chem i (s, c)
        = chemStep fl chem i (s, c) := rfl
    have hvib : ∀ sc, vibStep { fl with axisymmetric := false } vib i sc
        = vibStep fl vib i sc := fun _ => rfl
    have hL : Source_Residual_point fl axi chem vib i (s, c)
        = ((vibStep fl vib i (chemStep fl chem i (s, c))).1,
           { (vibStep fl vib i (chemStep fl chem i (s, c))).2 with eAxi := c.eAxi + 1 }) := by
      rw [Source_Residual_point, h1, chemStep_eAxi_comm]
      rw [show (chemStep fl chem i (s, c)) = ((chemStep fl chem i (s, c)).1,
        (chemStep fl chem i (s, c)).2) from rfl]
      rw [vibStep_eAxi_comm]
    have hR : Source_Residual_point { fl with axisymmetric := false } axi chem vib i (s, c)
        = vibStep fl vib i (chemStep fl chem i (s, c)) := by
      rw [Source_Residual_point, h2, hchem, hvib]
    refine ⟨?_, ?_⟩
    · rw [hL, hR]
    · rw [hL, hR]
      have : (vibStep fl vib i (chemStep fl chem i (s, c))).2.eAxi = c.eAxi := by
        rw [vibStep_snd_eAxi, chemStep_snd_eAxi]
      rw [this]
  · intro hmono hfro herr
    have h1 : ∀ sc : LinSys nP nV × SourceCounters,
        chemStep fl chem i sc = (sc.1, { sc.2 with eChm := sc.2.eChm + 1 }) := by
      intro sc
      simp [chemStep, hmono, hfro, herr]
    have h2 : ∀ sc : LinSys nP nV × SourceCounters,
        chemStep { fl with frozen := true } chem i sc = sc := by
      intro sc
      simp [chemStep]
    have haxi : axiStep { fl with frozen := true } axi i (s, c)
        = axiStep fl axi i (s, c) := rfl
    have hvib : ∀ sc, vibStep { fl with frozen := true } vib i sc
        = vibStep fl vib i sc := fun _ => rfl
    set sc1 := axiStep fl axi i (s, c) with hsc1
    have hL : Source_Residual_point fl axi chem vib i (s, c)
        = ((vibStep fl vib i sc1).1,
           { (vibStep fl vib i sc1).2 with eChm := sc1.2.eChm + 1 }) := by
      rw [Source_Residual_point, ← hsc1, h1 sc1]
      rw [show sc1 = (sc1.1, sc1.2) from rfl]
      rw [vibStep_eChm_comm]
    have hR : Source_Residual_point { fl with frozen := true } axi chem vib i (s, c)
        = vibStep fl vib i sc1 := by
      rw [Source_Residual_point, haxi, h2 sc1, hvib]
    refine ⟨?_, ?_⟩
    · rw [hL, hR]
    · rw [hL, hR, vibStep_snd_eChm]
  · intro hmono herr
    have h1 : vibStep fl vib i (chemStep fl chem i (axiStep fl axi i (s, c)))
        = ((chemStep fl chem i (axiStep fl axi i (s, c))).1,
           { (chemStep fl chem i (axiStep fl axi i (s, c))).2
             with eVib := (chemStep fl chem i (axiStep fl axi i (s, c))).2.eVib + 1 }) := by
      simp [vibStep, hmono, herr]
    have hueq : Source_Residual_point fl axi chem vib i (s, c)
        = vibStep fl vib i (chemStep fl chem i (axiStep fl axi i (s, c))) := rfl
    refine ⟨?_, ?_⟩ <;> rw [hueq, h1]

/-- Concrete witness flags: all three source types enabled, implicit. -/
def witFl : SourceFlags where
  axisymmetric := true
  frozen := false
  monoatomic := false
  implicit := true

/-- Concrete NaN-free source output. -/
def witSrcGood : SourceOut 1 where
  residual := fun _ => SU2Double.val 2
  jac := fun _ _ => SU2Double.val 1

/-- Concrete source output with a NaN residual entry. -/
def witSrcNaN : SourceOut 1 where
  residual := fun _ => SU2Double.nan
  jac := fun _ _ => SU2Double.val 1

/-- Concrete witness state on a one-point mesh. -/
def witSys1 : LinSys 1 1 where
  res := fun _ _ => SU2Double.val 4
  jac := fun _ _ _ _ => SU2Double.val 0

/-- Zeroed witness counters. -/
def witCnt : SourceCounters where
  eAxi := 0
  eChm := 0
  eVib := 0

theorem source_terms_signed_and_nan_guarded_witness :
    (witFl.monoatomic = false) ∧ (witFl.frozen = false) ∧
    (sourceErr witFl.implicit witSrcNaN = true) ∧
    ((Source_Residual_point witFl witSrcGood witSrcNaN witSrcGood (0 : Fin 1)
        (witSys1, witCnt)).1
      = (Source_Residual_point { witFl with frozen := true } witSrcGood witSrcNaN
          witSrcGood (0 : Fin 1) (witSys1, witCnt)).1 ∧
     (Source_Residual_point witFl witSrcGood witSrcNaN witSrcGood (0 : Fin 1)
        (witSys1, witCnt)).2
      = { (Source_Residual_point { witFl with frozen := true } witSrcGood witSrcNaN
            witSrcGood (0 : Fin 1) (witSys1, witCnt)).2
          with eChm :=
            (Source_Residual_point { witFl with frozen := true } witSrcGood witSrcNaN
              witSrcGood (0 : Fin 1) (witSys1, witCnt)).2.eChm + 1 }) :=
  ⟨rfl, rfl, by decide,
   (source_terms_signed_and_nan_guarded witFl witSrcGood witSrcNaN witSrcGood
     (0 : Fin 1) witSys1 witCnt).2.2.1 rfl rfl (by decide)⟩

/-- `config->GetTime_Marching()` as read by `SetTime_Step`. -/
inductive TimeMarching where
  | STEADY
  | TIME_STEPPING
  | DT_STEPPING_1ST
  | DT_STEPPING_2ND
deriving DecidableEq

/-- Per-point inputs of the time-step loop (CNEMOEulerSolver.cpp:577-601):
the cell volume and the accumulated inviscid and viscous spectral radii. -/
structure TSPoint where
  vol : ℚ
  maxLambdaInv : ℚ
  maxLambdaVisc : ℚ
deriving DecidableEq

/-- Configuration values read by `SetTime_Step`. -/
structure TSConfig where
  cfl : ℚ
  viscous : Bool
  maxDeltaTime : ℚ
  timeMarching : TimeMarching
  unstCFL : ℚ
  deltaUnstTime : ℚ
  deltaUnstTimeND : ℚ
  implicit : Bool
deriving DecidableEq

/-- `dual_time` (CNEMOEulerSolver.cpp:452-453). -/
def isDualTime (cfg : TSConfig) : Bool :=
  match cfg.timeMarching with
  | TimeMarching.DT_STEPPING_1ST => true
  | TimeMarching.DT_STEPPING_2ND => true
  | _ => false

/-- `K_v = 0.5` (CNEMOEulerSolver.cpp:457). -/
def kV : ℚ := 1 / 2

/-- The inviscid local step `CFL·Vol/λ_inv` (CNEMOEulerSolver.cpp:582). -/
def localDeltaTimeInv (cfg : TSConfig) (p : TSPoint) : ℚ :=
  cfg.cfl * p.vol / p.maxLambdaInv

/-- The viscous-limited step `CFL·K_v·Vol²/λ_visc` (CNEMOEulerSolver.cpp:585). -/
def localDeltaTimeVisc (cfg : TSConfig) (p : TSPoint) : ℚ :=
  cfg.cfl * kV * p.vol * p.vol / p.maxLambdaVisc

/-- The uncapped local step of a point: the inviscid step, further reduced by
the viscous-limited step on viscous runs (CNEMOEulerSolver.cpp:582-587). -/
def localDeltaTime (cfg : TSConfig) (p : TSPoint) : ℚ :=
  if cfg.viscous then min (localDeltaTimeInv cfg p) (localDeltaTimeVisc cfg p)
  else localDeltaTimeInv cfg p

/-- The per-point stored step of the steady loop (CNEMOEulerSolver.cpp:578-601):
for a nonzero-volume point, the uncapped local step clipped to the configured
maximum; a zero-volume point gets a zero step. -/
def steadyDeltaTime (cfg : TSConfig) (p : TSPoint) : ℚ :=
  if p.vol ≠ 0 then
    (if localDeltaTime cfg p > cfg.maxDeltaTime then cfg.maxDeltaTime
     else localDeltaTime cfg p)
  else 0

/-- `Min_Delta_Time` accumulated over nonzero-volume points from the
*uncapped* local step (CNEMOEulerSolver.cpp:455,590). -/
def Min_Delta_Time (cfg : TSConfig) (pts : List TSPoint) : ℚ :=
  pts.foldl (fun acc p => if p.vol ≠ 0 then min acc (localDeltaTime cfg p) else acc) 1000000

/-- `Max_Delta_Time` accumulated over nonzero-volume points from the
*uncapped* local step (CNEMOEulerSolver.cpp:456,591). -/
def Max_Delta_Time (cfg : TSConfig) (pts : List TSPoint) : ℚ :=
  pts.foldl (fun acc p => if p.vol ≠ 0 then max acc (localDeltaTime cfg p) else acc) 0

/-- `Global_Delta_Time`: the minimum of the *uncapped* local steps over all
nonzero-volume points, starting from 1E6 (CNEMOEulerSolver.cpp:442,589). -/
def Global_Delta_Time (cfg : TSConfig) (pts : List TSPoint) : ℚ :=
  pts.foldl (fun acc p => if p.vol ≠ 0 then min acc (localDeltaTime cfg p) else acc) 1000000

/-- `Delta_UnstTimeND` after the dual-time recomputation
(CNEMOEulerSolver.cpp:645-656). -/
def deltaUnstTimeND_after (cfg : TSConfig) (pts : List TSPoint) (iter : ℕ)
    (iMeshZero : Bool) : ℚ :=
  if isDualTime cfg = true ∧ iter = 0 ∧ cfg.unstCFL ≠ 0 ∧ iMeshZero = true then
    cfg.unstCFL * Global_Delta_Time cfg pts / cfg.cfl
  else cfg.deltaUnstTimeND

/-- The step finally stored at a point by `SetTime_Step`
(CNEMOEulerSolver.cpp:577-666): the steady per-point value, overwritten by
the global step (or the prescribed unsteady step when the unsteady CFL is
zero) in time-stepping mode, and clipped to `(2/3)·Δt_unst` for explicit
dual-time runs. -/
def finalDeltaTime (cfg : TSConfig) (pts : List TSPoint) (iter : ℕ)
    (iMeshZero : Bool) (p : TSPoint) : ℚ :=
  if cfg.timeMarching = TimeMarching.TIME_STEPPING then
    (if cfg.unstCFL = 0 then cfg.deltaUnstTime else Global_Delta_Time cfg pts)
  else if isDualTime cfg = true ∧ cfg.implicit = false then
    min (2 / 3 * deltaUnstTimeND_after cfg pts iter iMeshZero) (steadyDeltaTime cfg p)
  else steadyDeltaTime cfg p

theorem clip_eq_min (l m : ℚ) : (if l > m then m else l) = min l m := by
  split
  · exact (min_eq_right (le_of_lt (by assumption))).symm
  · exact (min_eq_left (le_of_not_lt (by assumption))).symm

/-- C3: in steady mode, every point with nonzero volume stores the step
`CFL·Vol/λ_inv`, reduced to `CFL·0.5·Vol²/λ_visc` when viscous, clipped to
the configured maximum Δt, so that `0 ≤ Δt ≤ Δt_max`; a zero-volume point
stores `Δt = 0`, and the computation is total (no failure is raised). -/
theorem time_step_steady (cfg : TSConfig) (pts : List TSPoint) (iter : ℕ)
    (iMeshZero : Bool) (p : TSPoint)
    (hsteady : cfg.timeMarching = TimeMarching.STEADY)
    (hcfl : 0 ≤ cfg.cfl) (hmax : 0 ≤ cfg.maxDeltaTime) (hvol : 0 ≤ p.vol)
    (hli : 0 ≤ p.maxLambdaInv) (hlv : 0 ≤ p.maxLambdaVisc) :
    (p.vol ≠ 0 → finalDeltaTime cfg pts iter iMeshZero p
        = min (if cfg.viscous then
                 min (cfg.cfl * p.vol / p.maxLambdaInv)
                     (cfg.cfl * (1 / 2) * p.vol * p.vol / p.maxLambdaVisc)
               else cfg.cfl * p.vol / p.maxLambdaInv)
              cfg.maxDeltaTime) ∧
    (p.vol = 0 → finalDeltaTime cfg pts iter iMeshZero p = 0) ∧
    0 ≤ finalDeltaTime cfg pts iter iMeshZero p ∧
    finalDeltaTime cfg pts iter iMeshZero p ≤ cfg.maxDeltaTime := by
  have hfin : finalDeltaTime cfg pts iter iMeshZero p = steadyDeltaTime cfg p := by
    simp [finalDeltaTime, hsteady, isDualTime]
  have hloc : 0 ≤ localDeltaTime cfg p := by
    have h1 : 0 ≤ localDeltaTimeInv cfg p :=
      div_nonneg (mul_nonneg hcfl hvol) hli
    have h2 : 0 ≤ localDeltaTimeVisc cfg p :=
      div_nonneg (mul_nonneg (mul_nonneg (mul_nonneg hcfl (by norm_num [kV])) hvol) hvol) hlv
    unfold localDeltaTime
    split
    · exact le_min h1 h2
    · exact h1
  have hform : localDeltaTime cfg p
      = (if cfg.viscous then
           min (cfg.cfl * p.vol / p.maxLambdaInv)
               (cfg.cfl * (1 / 2) * p.vol * p.vol / p.maxLambdaVisc)
         else cfg.cfl * p.vol / p.maxLambdaInv) := by
    unfold localDeltaTime localDeltaTimeInv localDeltaTimeVisc kV
    rfl
  refine ⟨?_, ?_, ?_, ?_⟩
  · intro hv
    rw [hfin]
    unfold steadyDeltaTime
    rw [if_pos hv, clip_eq_min, hform]
  · intro hv
    rw [hfin]
    unfold steadyDeltaTime
    rw [if_neg (by simp [hv])]
  · rw [hfin]
    unfold steadyDeltaTime
    split
    · rw [clip_eq_min]
      exact le_min hloc hmax
    · exact le_refl 0
  · rw [hfin]
    unfold steadyDeltaTime
    split
    · rw [clip_eq_min]
      exact min_le_right _ _
    · exact hmax

/-- Concrete steady witness configuration. -/
def witCfgSteady : TSConfig where
  cfl := 1
  viscous := true
  maxDeltaTime := 3
  timeMarching := TimeMarching.STEADY
  unstCFL := 0
  deltaUnstTime := 0
  deltaUnstTimeND := 0
  implicit := false

/-- Concrete witness point. -/
def witPt : TSPoint where
  vol := 2
  maxLambdaInv := 1
  maxLambdaVisc := 4

theorem time_step_steady_witness :
    (witCfgSteady.timeMarching = TimeMarching.STEADY) ∧ (0 ≤ witCfgSteady.cfl) ∧
    (0 ≤ witCfgSteady.maxDeltaTime) ∧ (0 ≤ witPt.vol) ∧
    ((witPt.vol ≠ 0 → finalDeltaTime witCfgSteady [witPt] 0 true witPt
        = min (if witCfgSteady.viscous then
                 min (witCfgSteady.cfl * witPt.vol / witPt.maxLambdaInv)
                     (witCfgSteady.cfl * (1 / 2) * witPt.vol * witPt.vol / witPt.maxLambdaVisc)
               else witCfgSteady.cfl * witPt.vol / witPt.maxLambdaInv)
              witCfgSteady.maxDeltaTime) ∧
     (witPt.vol = 0 → finalDeltaTime witCfgSteady [witPt] 0 true witPt = 0) ∧
     0 ≤ finalDeltaTime witCfgSteady [witPt] 0 true witPt ∧
     finalDeltaTime witCfgSteady [witPt] 0 true witPt ≤ witCfgSteady.maxDeltaTime) :=
  ⟨rfl, by norm_num [witCfgSteady], by norm_num [witCfgSteady], by norm_num [witPt],
   time_step_steady witCfgSteady [witPt] 0 true witPt rfl
     (by norm_num [witCfgSteady]) (by norm_num [witCfgSteady]) (by norm_num [witPt])
     (by norm_num [witPt]) (by norm_num [witPt])⟩

/-- Concrete time-stepping configuration whose global step exceeds the
configured maximum Δt. -/
def witCfgTS : TSConfig where
  cfl := 1
  viscous := false
  maxDeltaTime := 1 / 2
  timeMarching := TimeMarching.TIME_STEPPING
  unstCFL := 1
  deltaUnstTime := 0
  deltaUnstTimeND := 0
  implicit := false

/-- Unit witness point for the time-stepping instance. -/
def witPtTS : TSPoint where
  vol := 1
  maxLambdaInv := 1
  maxLambdaVisc := 1

/-- C10: `Min_Delta_Time`, `Max_Delta_Time` and `Global_Delta_Time` are
computed from the uncapped local step — they do not depend on the configured
maximum Δt at all — and in time-stepping mode with nonzero unsteady CFL every
point is assigned `Global_Delta_Time`; consequently the assigned step can
exceed the configured maximum Δt, as the concrete instance shows (its
per-point steady value is clipped to `Δt_max` but the broadcast global value
is not). -/
theorem time_stepping_global_is_uncapped :
    (∀ (cfg : TSConfig) (pts : List TSPoint) (m : ℚ),
      Global_Delta_Time { cfg with maxDeltaTime := m } pts = Global_Delta_Time cfg pts ∧
      Min_Delta_Time { cfg with maxDeltaTime := m } pts = Min_Delta_Time cfg pts ∧
      Max_Delta_Time { cfg with maxDeltaTime := m } pts = Max_Delta_Time cfg pts) ∧
    (∀ (cfg : TSConfig) (pts : List TSPoint) (iter : ℕ) (iMeshZero : Bool) (p : TSPoint),
      cfg.timeMarching = TimeMarching.TIME_STEPPING → cfg.unstCFL ≠ 0 →
      finalDeltaTime cfg pts iter iMeshZero p = Global_Delta_Time cfg pts) ∧
    (steadyDeltaTime witCfgTS witPtTS = witCfgTS.maxDeltaTime ∧
     finalDeltaTime witCfgTS [witPtTS] 0 true witPtTS = 1 ∧
     witCfgTS.maxDeltaTime < finalDeltaTime witCfgTS [witPtTS] 0 true witPtTS) := by
  refine ⟨fun cfg pts m => ⟨rfl, rfl, rfl⟩, ?_, ?_, ?_, ?_⟩
  · intro cfg pts iter iMeshZero p htm hcfl
    simp [finalDeltaTime, htm, hcfl]
  · norm_num [steadyDeltaTime, localDeltaTime, localDeltaTimeInv, witCfgTS, witPtTS]
  · norm_num [finalDeltaTime, Global_Delta_Time, localDeltaTime, localDeltaTimeInv,
      witCfgTS, witPtTS]
  · norm_num [finalDeltaTime, Global_Delta_Time, localDeltaTime, localDeltaTimeInv,
      witCfgTS, witPtTS]

theorem time_stepping_global_is_uncapped_witness :
    (witCfgTS.timeMarching = TimeMarching.TIME_STEPPING) ∧ (witCfgTS.unstCFL ≠ 0) ∧
    finalDeltaTime witCfgTS [witPtTS] 3 false witPtTS = Global_Delta_Time witCfgTS [witPtTS] :=
  ⟨rfl, by norm_num [witCfgTS],
   time_stepping_global_is_uncapped.2.1 witCfgTS [witPtTS] 3 false witPtTS rfl
     (by norm_num [witCfgTS])⟩

/-- State of the implicit system build (`ImplicitEuler_Iteration`): the block
Jacobian, the right-hand side `LinSysRes` and the per-point truncation error,
in exact arithmetic. -/
structure ImplicitState (nP nV : ℕ) where
  jac : Fin nP → Fin nP → Fin nV → Fin nV → ℚ
  linSysRes : Fin nP → Fin nV → ℚ
  truncError : Fin nP → Fin nV → ℚ

/-- Modelled from the spec: `CSysMatrix::AddVal2Diag` is not under `src/`;
per the spec the "diagonal Jacobian [is] boosted by `Volume/Δt`", i.e. the
value is added to every diagonal entry of the point's diagonal block. -/
def addVal2Diag {nP nV : ℕ} (J : Fin nP → Fin nP → Fin nV → Fin nV → ℚ)
    (i : Fin nP) (d : ℚ) : Fin nP → Fin nP → Fin nV → Fin nV → ℚ :=
  fun p q v w => if p = i ∧ q = i ∧ v = w then J p q v w + d else J p q v w

/-- Modelled from the spec: `CSysMatrix::SetVal2Diag` is not under `src/`;
per the spec the degenerate point's "row [is] forced to identity", i.e. its
diagonal block becomes `c·I` and its off-diagonal blocks become zero. -/
def setVal2Diag {nP nV : ℕ} (J : Fin nP → Fin nP → Fin nV → Fin nV → ℚ)
    (i : Fin nP) (c : ℚ) : Fin nP → Fin nP → Fin nV → Fin nV → ℚ :=
  fun p q v w => if p = i then (if q = i ∧ v = w then c else 0) else J p q v w

/-- Per-point inputs of the implicit build loop. -/
structure ImplicitPointData where
  vol : ℚ
  deltaTime : ℚ
deriving DecidableEq

/-- One owned point of the implicit system build
(CNEMOEulerSolver.cpp:1204-1234): when `Δt ≠ 0` the diagonal block gains
`Vol/Δt`; when `Δt == 0` the point's Jacobian row is forced to identity and
its right-hand side and truncation error are zeroed; afterwards the
right-hand side of the point becomes `-(LinSysRes + truncError)`. -/
def ImplicitEuler_buildPoint {nP nV : ℕ} (pd : ImplicitPointData) (i : Fin nP)
    (s : ImplicitState nP nV) : ImplicitState nP nV :=
  let s1 :=
    if pd.deltaTime ≠ 0 then
      { s with jac := addVal2Diag s.jac i (pd.vol / pd.deltaTime) }
    else
      { jac := setVal2Diag s.jac i 1
        linSysRes := fun p v => if p = i then 0 else s.linSysRes p v
        truncError := fun p v => if p = i then 0 else s.truncError p v }
  { s1 with
    linSysRes := fun p v =>
      if p = i then -(s1.linSysRes p v + s1.truncError p v) else s1.linSysRes p v }

/-- The `i`-th block row of the Jacobian applied to a block vector. -/
def jacRowApply {nP nV : ℕ} (J : Fin nP → Fin nP → Fin nV → Fin nV → ℚ)
    (x : Fin nP → Fin nV → ℚ) (i : Fin nP) (v : Fin nV) : ℚ :=
  ∑ q, ∑ w, J i q v w * x q w

/-- C8: in `ImplicitEuler_Iteration`, a point with `Δt ≠ 0` gets `Vol/Δt`
added to its diagonal Jacobian block and right-hand side
`-(Residual + TruncError)`; a point with `Δt == 0` gets its Jacobian row
forced to the identity row with zero right-hand side and zero truncation
error, so its row of the system reads `x_i = 0`: any exact solution of the
built system has a zero increment at the degenerate point, and the row is
never singular. -/
theorem implicit_euler_degenerate_rows {nP nV : ℕ} (pd : ImplicitPointData)
    (i : Fin nP) (s : ImplicitState nP nV) :
    (pd.deltaTime ≠ 0 →
      (∀ v, (ImplicitEuler_buildPoint pd i s).jac i i v v
          = s.jac i i v v + pd.vol / pd.deltaTime) ∧
      (∀ v w, v ≠ w → (ImplicitEuler_buildPoint pd i s).jac i i v w = s.jac i i v w) ∧
      (∀ q, q ≠ i → ∀ v w, (ImplicitEuler_buildPoint pd i s).jac i q v w = s.jac i q v w) ∧
      (∀ v, (ImplicitEuler_buildPoint pd i s).linSysRes i v
          = -(s.linSysRes i v + s.truncError i v))) ∧
    (pd.deltaTime = 0 →
      (∀ v w, (ImplicitEuler_buildPoint pd i s).jac i i v w = if v = w then 1 else 0) ∧
      (∀ q, q ≠ i → ∀ v w, (ImplicitEuler_buildPoint pd i s).jac i q v w = 0) ∧
      (∀ v, (ImplicitEuler_buildPoint pd i s).linSysRes i v = 0) ∧
      (∀ v, (ImplicitEuler_buildPoint pd i s).truncError i v = 0) ∧
      (∀ (x : Fin nP → Fin nV → ℚ) (v : Fin nV),
        jacRowApply (ImplicitEuler_buildPoint pd i s).jac x i v
            = (ImplicitEuler_buildPoint pd i s).linSysRes i v →
        x i v = 0)) := by
  constructor
  · intro hdt
    refine ⟨fun v => ?_, fun v w hvw => ?_, fun q hq v w => ?_, fun v => ?_⟩
    · simp [ImplicitEuler_buildPoint, hdt, addVal2Diag]
    · simp [ImplicitEuler_buildPoint, hdt, addVal2Diag, hvw]
    · simp [ImplicitEuler_buildPoint, hdt, addVal2Diag, hq]
    · simp [ImplicitEuler_buildPoint, hdt, addVal2Diag]
  · intro hdt
    have hrow : ∀ q v w, (ImplicitEuler_buildPoint pd i s).jac i q v w
        = if q = i ∧ v = w then 1 else 0 := by
      intro q v w
      simp [ImplicitEuler_buildPoint, hdt, setVal2Diag]
    have hres : ∀ v, (ImplicitEuler_buildPoint pd i s).linSysRes i v = 0 := by
      intro v
      simp [ImplicitEuler_buildPoint, hdt]
    have htrunc : ∀ v, (ImplicitEuler_buildPoint pd i s).truncError i v = 0 := by
      intro v
      simp [ImplicitEuler_buildPoint, hdt]
    refine ⟨fun v w => by rw [hrow]; simp, fun q hq v w => by rw [hrow]; simp [hq],
      hres, htrunc, ?_⟩
    intro x v hx
    have hid : jacRowApply (ImplicitEuler_buildPoint pd i s).jac x i v = x i v := by
      unfold jacRowApply
      simp_rw [hrow]
      have h1 : ∀ q : Fin nP,
          (∑ w, (if q = i ∧ v = w then (1 : ℚ) else 0) * x q w)
            = if q = i then x q v else 0 := by
        intro q
        by_cases hq : q = i
        · subst hq
          simp [ite_mul, one_mul, zero_mul, Finset.sum_ite_eq]
        · simp [hq]
      simp_rw [h1]
      simp [Finset.sum_ite_eq']
    rw [hid, hres v] at hx
    exact hx

/-- Degenerate (zero time step) witness point data. -/
def witPdZero : ImplicitPointData where
  vol := 0
  deltaTime := 0

/-- Concrete witness implicit state. -/
def witImp : ImplicitState 1 1 where
  jac := fun _ _ _ _ => 5
  linSysRes := fun _ _ => 6
  truncError := fun _ _ => 7

theorem implicit_euler_degenerate_rows_witness :
    (witPdZero.deltaTime = 0) ∧
    (∀ v, (ImplicitEuler_buildPoint witPdZero (0 : Fin 1) witImp).linSysRes 0 v = 0) ∧
    (∀ (x : Fin 1 → Fin 1 → ℚ) (v : Fin 1),
      jacRowApply (ImplicitEuler_buildPoint witPdZero (0 : Fin 1) witImp).jac x 0 v
          = (ImplicitEuler_buildPoint witPdZero (0 : Fin 1) witImp).linSysRes 0 v →
      x 0 v = 0) :=
  ⟨rfl,
   ((implicit_euler_degenerate_rows witPdZero (0 : Fin 1) witImp).2 rfl).2.2.1,
   ((implicit_euler_degenerate_rows witPdZero (0 : Fin 1) witImp).2 rfl).2.2.2.2⟩

/-- A fatal error raised through `SU2_MPI::Error` (mpi_structure.cpp): the
human-readable message and the raising function's name, as printed in the
single formatted diagnostic block before `Abort` terminates all processes.
`SU2_MPI::Error` never returns, so raising it is modelled as returning
`Except.error`: everything after the call in the raising function is dead
code and no state it would have touched is modified. -/
structure FatalError where
  message : String
  functionName : String
deriving DecidableEq

/-- `BC_Inlet` (CNEMOEulerSolver.cpp:1917-1922): the very first statement
raises `SU2_MPI::Error("BC_INLET: Not operational in NEMO.")`, before any
per-vertex work; the residual/Jacobian state is returned untouched inside the
error (nothing was modified when the abort fired). -/
def BC_Inlet {nP nV : ℕ} (_s : LinSys nP nV) : Except FatalError (LinSys nP nV) :=
  Except.error { message := "BC_INLET: Not operational in NEMO."
                 functionName := "BC_Inlet" }

/-- `BC_Supersonic_Inlet` (CNEMOEulerSolver.cpp:2435-2438): the very first
statement raises `SU2_MPI::Error("BC_SUPERSONIC_INLET: Not operational in
NEMO.")`; the whole remaining body is commented out in the source. -/
def BC_Supersonic_Inlet {nP nV : ℕ} (_s : LinSys nP nV) :
    Except FatalError (LinSys nP nV) :=
  Except.error { message := "BC_SUPERSONIC_INLET: Not operational in NEMO."
                 functionName := "BC_Supersonic_Inlet" }

/-- C6: `BC_Inlet` and `BC_Supersonic_Inlet` raise a fatal configuration
error naming the operation as non-operational in NEMO for every input,
before any per-vertex work; neither ever returns normally, so neither ever
modifies the residual vector or the Jacobian. -/
theorem bc_inlet_always_fatal {nP nV : ℕ} (s : LinSys nP nV) :
    BC_Inlet s = Except.error { message := "BC_INLET: Not operational in NEMO."
                                functionName := "BC_Inlet" } ∧
    BC_Supersonic_Inlet s
      = Except.error { message := "BC_SUPERSONIC_INLET: Not operational in NEMO."
                       functionName := "BC_Supersonic_Inlet" } ∧
    (∀ t, BC_Inlet s ≠ Except.ok t) ∧ (∀ t, BC_Supersonic_Inlet s ≠ Except.ok t) :=
  ⟨rfl, rfl, fun t h => by simp [BC_Inlet] at h, fun t h => by simp [BC_Supersonic_Inlet] at h⟩

/-- `config->GetKind_InitOption()`. -/
inductive KindInitOption where
  | REYNOLDS
  | TD_CONDITIONS
deriving DecidableEq

/-- The configuration read by the error-relevant part of
`SetNondimensionalization`. -/
structure NondimConfig where
  viscous : Bool
  initOption : KindInitOption
deriving DecidableEq

/-- The control-flow skeleton of `SetNondimensionalization` around its only
input-dependent fatal error (CNEMOEulerSolver.cpp:1357-1401): on a viscous
run with the Reynolds-number initialization option, `SU2_MPI::Error` fires;
otherwise the free-stream energy `energies[0] + 0.5·|v|²` is computed and
the function completes.  `energy0` is `energies[0]` from the fluid model and
`sqvel` the squared free-stream velocity modulus. -/
def SetNondimensionalization (cfg : NondimConfig) (energy0 sqvel : ℚ) :
    Except FatalError ℚ :=
  if cfg.viscous then
    if ¬(cfg.initOption = KindInitOption.REYNOLDS) then
      Except.ok (energy0 + 1 / 2 * sqvel)
    else
      Except.error
        { message := "Only thermodynamics quantities based initialization: set pressure, temperatures and flag INIT_OPTION= TD_CONDITIONS."
          functionName := "SetNondimensionalization" }
  else
    Except.ok (energy0 + 1 / 2 * sqvel)

/-- C9 counterexample: with the Reynolds-number initialization option
selected but an inviscid run, `SetNondimensionalization` completes without
raising any error — the claim that the option always fails is false. -/
theorem reynolds_init_inviscid_no_error :
    SetNondimensionalization
        { viscous := false, initOption := KindInitOption.REYNOLDS } 3 0
      = Except.ok 3 ∧
    (∀ e, SetNondimensionalization
        { viscous := false, initOption := KindInitOption.REYNOLDS } 3 0
      ≠ Except.error e) := by
  constructor
  · simp [SetNondimensionalization]
  · intro e h
    simp [SetNondimensionalization] at h

/-- C9 (amended): on a *viscous* run with the Reynolds-number initialization
option, `SetNondimensionalization` raises the fatal configuration error whose
message names the required alternative `INIT_OPTION= TD_CONDITIONS`; on an
inviscid run the option is ignored and the function completes normally. -/
theorem reynolds_init_viscous_fatal (cfg : NondimConfig) (energy0 sqvel : ℚ)
    (hv : cfg.viscous = true) (hr : cfg.initOption = KindInitOption.REYNOLDS) :
    SetNondimensionalization cfg energy0 sqvel
      = Except.error
          { message := "Only thermodynamics quantities based initialization: set pressure, temperatures and flag INIT_OPTION= TD_CONDITIONS."
            functionName := "SetNondimensionalization" } := by
  simp [SetNondimensionalization, hv, hr]

theorem reynolds_init_viscous_fatal_witness :
    (({ viscous := true, initOption := KindInitOption.REYNOLDS } : NondimConfig).viscous
        = true) ∧
    (({ viscous := true, initOption := KindInitOption.REYNOLDS } : NondimConfig).initOption
        = KindInitOption.REYNOLDS) ∧
    SetNondimensionalization
        { viscous := true, initOption := KindInitOption.REYNOLDS } 3 2
      = Except.error
          { message := "Only thermodynamics quantities based initialization: set pressure, temperatures and flag INIT_OPTION= TD_CONDITIONS."
            functionName := "SetNondimensionalization" } :=
  ⟨rfl, rfl,
   reynolds_init_viscous_fatal
     { viscous := true, initOption := KindInitOption.REYNOLDS } 3 2 rfl rfl⟩

end SU2NEMO
